import Mathlib

/-!
Shallow embedding of the particle-bookkeeping core of
`Physika_Src/Physika_Dynamics/MPM/mpm_solid_base.cpp` (class
`MPMSolidBase<Scalar,Dim>`), and proofs of the specification claims about it.

Modelling conventions:
* `Scalar` is embedded as `ℚ` (exact arithmetic); the one place the code calls
  `sqrt` is embedded via `Real.sqrt`.
* The template parameter `Dim` and the kernel state
  `weight_function_->supportRadius()` are carried as fields of the state record
  (`dim`, `supportRadius`); the class holds a kernel pointer whose support
  radius can change independently of the particle data.
* `std::vector<T>` is embedded as `List T`; `v.resize(n, fill)` keeps the first
  `min n v.size` elements and fills only newly created tail slots, and
  `v.erase(v.begin()+i)` removes the element at index `i`, shifting the tail.
* `SolidParticle<Scalar,Dim>*` pointer slots are embedded as
  `Option SolidParticle`, holding the value of the pointee at the last write;
  `none` is the NULL pointer.  `delete p` frees the pointee but does not change
  the pointer value stored in the vector, so in the embedding a deleted slot
  still holds its old value (it is a dangling pointer in the C++ code).
-/

namespace PhysikaMPM

/-- A small vector of scalar components (`Vector<Scalar,Dim>`). -/
abbrev Vec := List ℚ

/-- `Vector::normSquared()`: sum of squared components. -/
def normSquared (v : Vec) : ℚ := (v.map (fun x => x * x)).sum

/-- `SolidParticle<Scalar,Dim>`: the physical state of one particle
(position, velocity, mass, volume).  `clone()` is deep copy, which in the
value embedding is the identity on the value. -/
structure SolidParticle where
  position : Vec
  velocity : Vec
  mass : ℚ
  volume : ℚ
deriving DecidableEq

/-- `MPMInternal::NodeIndexWeightGradientPair<Scalar,Dim>`: one cached
(node index, weight, weight gradient) entry; default-constructed entries fill
freshly allocated cache slots. -/
structure NodeIndexWeightGradientPair where
  nodeIndex : ℕ := 0
  weight : ℚ := 0
  gradient : Vec := []
deriving DecidableEq

/-- A default-constructed cache entry. -/
def defaultPair : NodeIndexWeightGradientPair := {}

/-- The data members of `MPMSolidBase<Scalar,Dim>` that the particle
bookkeeping touches.  `dim` is the template parameter `Dim`;
`supportRadius` is the current kernel state `weight_function_->supportRadius()`. -/
structure MPMSolidBase where
  dim : ℕ
  supportRadius : ℕ
  particles : List (Option SolidParticle)
  is_bc_particle : List Bool
  particle_initial_volume : List ℚ
  particle_grid_weight_and_gradient : List (List NodeIndexWeightGradientPair)
  particle_grid_pair_num : List ℕ
deriving DecidableEq

namespace MPMSolidBase

/-- `MPMSolidBase::particleNum()`: `particles_.size()`. -/
def particleNum (s : MPMSolidBase) : ℕ := s.particles.length

/-- The loop `for(i = 0; i < Dim; ++i) max_num *= supportRadius*2+1`
starting from `max_num = 1`, shared by `allocateSpaceForWeightAndGradient`
and `appendSpaceForWeightAndGradient`. -/
def maxGridPairNum (s : MPMSolidBase) : ℕ :=
  (List.range s.dim).foldl (fun acc _ => acc * (s.supportRadius * 2 + 1)) 1

/-- `std::vector::resize(n, fill)`: truncate when shrinking, keep the existing
prefix and append copies of `fill` when growing. -/
def vecResize {α : Type} (l : List α) (n : ℕ) (fill : α) : List α :=
  if n ≤ l.length then l.take n else l ++ List.replicate (n - l.length) fill

/-- `std::vector::erase(begin()+i)`: remove the element at index `i`,
shifting the tail down by one. -/
def vecErase {α : Type} (l : List α) (i : ℕ) : List α :=
  l.take i ++ l.drop (i + 1)

/-- `MPMSolidBase::appendSpaceForWeightAndGradient()`: push one
freshly-sized, default-filled cache slot and a zero valid-entry counter. -/
def appendSpaceForWeightAndGradient (s : MPMSolidBase) : MPMSolidBase :=
  { s with
    particle_grid_weight_and_gradient :=
      s.particle_grid_weight_and_gradient ++
        [List.replicate s.maxGridPairNum defaultPair]
    particle_grid_pair_num := s.particle_grid_pair_num ++ [0] }

/-- `MPMSolidBase::allocateSpaceForWeightAndGradient()`: resize the cache
sequence and the valid-entry counters to `particles_.size()`, filling new
slots with a freshly-sized default vector resp. 0. -/
def allocateSpaceForWeightAndGradient (s : MPMSolidBase) : MPMSolidBase :=
  { s with
    particle_grid_weight_and_gradient :=
      vecResize s.particle_grid_weight_and_gradient s.particles.length
        (List.replicate s.maxGridPairNum defaultPair)
    particle_grid_pair_num :=
      vecResize s.particle_grid_pair_num s.particles.length 0 }

/-- `MPMSolidBase::addParticle(particle)`: clone and push the particle, push a
"not boundary" flag and the particle volume, and append one cache slot. -/
def addParticle (s : MPMSolidBase) (p : SolidParticle) : MPMSolidBase :=
  appendSpaceForWeightAndGradient
    { s with
      particles := s.particles ++ [some p]
      is_bc_particle := s.is_bc_particle ++ [false]
      particle_initial_volume := s.particle_initial_volume ++ [p.volume] }

/-- `MPMSolidBase::removeParticle(particle_idx)`: out-of-range indices are
reported and ignored; otherwise the entry at `particle_idx` is erased from all
five member vectors (the owned particle is deleted first). -/
def removeParticle (s : MPMSolidBase) (particle_idx : ℕ) : MPMSolidBase :=
  if particle_idx ≥ s.particles.length then s
  else
    { s with
      particles := vecErase s.particles particle_idx
      particle_initial_volume := vecErase s.particle_initial_volume particle_idx
      is_bc_particle := vecErase s.is_bc_particle particle_idx
      particle_grid_weight_and_gradient :=
        vecErase s.particle_grid_weight_and_gradient particle_idx
      particle_grid_pair_num := vecErase s.particle_grid_pair_num particle_idx }

/-- The body of the final loop of `MPMSolidBase::setParticles`: for index `i`,
a NULL input is reported and skipped (`continue`), otherwise the clone is
stored and the boundary flag and initial volume at `i` are overwritten. -/
def setParticlesStep (input : List (Option SolidParticle))
    (t : MPMSolidBase) (i : ℕ) : MPMSolidBase :=
  match input.getD i none with
  | none => t
  | some p =>
    { t with
      particles := t.particles.set i (some p)
      is_bc_particle := t.is_bc_particle.set i false
      particle_initial_volume := t.particle_initial_volume.set i p.volume }

/-- `MPMSolidBase::setParticles(particles)`: delete all owned particles
(pointer values in the vector are untouched), resize the particle, flag and
initial-volume vectors, reallocate the cache space, then loop over the input
assigning clones and skipping NULL entries. -/
def setParticles (s : MPMSolidBase) (input : List (Option SolidParticle)) :
    MPMSolidBase :=
  (List.range input.length).foldl (setParticlesStep input)
    (allocateSpaceForWeightAndGradient
      { s with
        particles := vecResize s.particles input.length none
        is_bc_particle := vecResize s.is_bc_particle input.length false
        particle_initial_volume :=
          vecResize s.particle_initial_volume input.length 0 })

/-- Result of the read accessor `MPMSolidBase::particle(particle_idx)` (the
`const` and non-`const` overloads run the same code): either the process is
terminated (`std::exit(EXIT_FAILURE)`), or a reference to `*particles_[idx]`
is returned, represented by the pointer slot that is dereferenced. -/
inductive AtResult where
  | fatal : AtResult
  | ref : Option SolidParticle → AtResult
deriving DecidableEq

/-- `MPMSolidBase::particle(particle_idx)`: fatal on an out-of-range index,
otherwise return (a reference to) the stored particle slot. -/
def particle (s : MPMSolidBase) (particle_idx : ℕ) : AtResult :=
  if particle_idx ≥ s.particles.length then AtResult.fatal
  else AtResult.ref (s.particles.getD particle_idx none)

/-- `MPMSolidBase::addBCParticle(particle_idx)`: out-of-range indices are
reported and ignored; otherwise the boundary flag at the index is set. -/
def addBCParticle (s : MPMSolidBase) (particle_idx : ℕ) : MPMSolidBase :=
  if particle_idx ≥ s.particles.length then s
  else { s with is_bc_particle := s.is_bc_particle.set particle_idx true }

/-- `MPMSolidBase::addBCParticles(particle_idx)`: apply `addBCParticle` to
each index in order. -/
def addBCParticles (s : MPMSolidBase) (particle_idx : List ℕ) : MPMSolidBase :=
  particle_idx.foldl addBCParticle s

/-- The squared velocity norm read through a particle pointer slot
(`particles_[i]->velocity().normSquared()`).  Dereferencing a NULL slot is
undefined behaviour in the code; the embedding returns 0 there and the
theorems about this function assume no NULL slots. -/
def slotVelocityNormSq (o : Option SolidParticle) : ℚ :=
  match o with
  | some p => normSquared p.velocity
  | none => 0

/-- The reduction loop of `MPMSolidBase::maxParticleVelocityNorm`:
`min_vel = numeric_limits<Scalar>::max; for each particle:
min_vel = norm_sqr < min_vel ? norm_sqr : min_vel`.  `limitsMax` stands for
`std::numeric_limits<Scalar>::max()`. -/
def minVelFold (limitsMax : ℚ) (s : MPMSolidBase) : ℚ :=
  s.particles.foldl
    (fun m o => if slotVelocityNormSq o < m then slotVelocityNormSq o else m)
    limitsMax

/-- `MPMSolidBase::maxParticleVelocityNorm()`: 0 on an empty container,
otherwise `sqrt` of the reduction result. -/
noncomputable def maxParticleVelocityNorm (limitsMax : ℚ) (s : MPMSolidBase) :
    ℝ :=
  if s.particles.isEmpty then 0 else Real.sqrt (minVelFold limitsMax s)

/-- Modelled from the spec: replacing the interpolation kernel
(`weight_function_`, owned by the base class `MPMBase`, whose code is not part
of this translation unit) with one of a different support radius; per §6 the
kernel supplies `supportRadius()` and can change independently of the
particle data. -/
def setKernelSupportRadius (s : MPMSolidBase) (r : ℕ) : MPMSolidBase :=
  { s with supportRadius := r }

/-- A freshly constructed solver with no particles (the default-constructed
member vectors are all empty). -/
def emptyContainer (dim supportRadius : ℕ) : MPMSolidBase :=
  { dim := dim
    supportRadius := supportRadius
    particles := []
    is_bc_particle := []
    particle_initial_volume := []
    particle_grid_weight_and_gradient := []
    particle_grid_pair_num := [] }

/-- The parallel-sequence invariant: the boundary-flag, initial-volume,
cache-slot and valid-entry-counter sequences all have the same length as the
particle sequence. -/
def wellFormed (s : MPMSolidBase) : Prop :=
  s.is_bc_particle.length = s.particles.length ∧
  s.particle_initial_volume.length = s.particles.length ∧
  s.particle_grid_weight_and_gradient.length = s.particles.length ∧
  s.particle_grid_pair_num.length = s.particles.length

instance (s : MPMSolidBase) : Decidable (wellFormed s) := by
  unfold wellFormed; infer_instance

/-- One structural container operation, for stating invariants over operation
sequences. -/
inductive ContainerOp where
  | add : SolidParticle → ContainerOp
  | removeAt : ℕ → ContainerOp
deriving DecidableEq

/-- Apply one container operation. -/
def applyOp (s : MPMSolidBase) : ContainerOp → MPMSolidBase
  | ContainerOp.add p => s.addParticle p
  | ContainerOp.removeAt i => s.removeParticle i

/-- Apply a sequence of container operations in order. -/
def applyOps (s : MPMSolidBase) (ops : List ContainerOp) : MPMSolidBase :=
  ops.foldl applyOp s

/-- A sample particle used to instantiate the theorems on concrete inputs. -/
def pA : SolidParticle :=
  { position := [0, 0], velocity := [0, 0], mass := 1, volume := 2 }

/-- A second sample particle. -/
def pB : SolidParticle :=
  { position := [1, 0], velocity := [0, 1], mass := 1, volume := 3 }

/-- A third sample particle, with velocity norm 5. -/
def pC : SolidParticle :=
  { position := [0, 1], velocity := [3, 4], mass := 2, volume := 5 }

/-! ### Basic lemmas about the vector primitives -/

theorem vecResize_length {α : Type} (l : List α) (n : ℕ) (fill : α) :
    (vecResize l n fill).length = n := by
  unfold vecResize
  split
  · simp [List.length_take]; omega
  · simp [List.length_replicate]; omega

theorem getElem?_vecResize_kept {α : Type} {l : List α} {n j : ℕ} {fill : α}
    (hjl : j < l.length) (hjn : j < n) :
    (vecResize l n fill)[j]? = l[j]? := by
  unfold vecResize
  split
  · rw [List.getElem?_take, if_pos hjn]
  · rw [List.getElem?_append, if_pos hjl]

theorem getElem?_vecResize_new {α : Type} {l : List α} {n j : ℕ} {fill : α}
    (hjl : l.length ≤ j) (hjn : j < n) :
    (vecResize l n fill)[j]? = some fill := by
  unfold vecResize
  split
  · omega
  · rw [List.getElem?_append_right hjl, List.getElem?_replicate, if_pos (by omega)]

theorem vecErase_length {α : Type} {l : List α} {i : ℕ} (hi : i < l.length) :
    (vecErase l i).length = l.length - 1 := by
  unfold vecErase
  simp [List.length_take, List.length_drop]
  omega

theorem getElem?_vecErase_lt {α : Type} {l : List α} {i j : ℕ} (hj : j < i) :
    (vecErase l i)[j]? = l[j]? := by
  unfold vecErase
  rw [List.getElem?_append]
  by_cases hjt : j < (List.take i l).length
  · rw [if_pos hjt, List.getElem?_take, if_pos hj]
  · rw [if_neg hjt]
    rw [List.length_take] at hjt
    have hlen : l.length ≤ j := by omega
    rw [List.getElem?_drop, List.getElem?_eq_none hlen,
      List.getElem?_eq_none (by rw [List.length_take]; omega)]

theorem getElem?_vecErase_ge {α : Type} {l : List α} {i j : ℕ} (hj : i ≤ j) :
    (vecErase l i)[j]? = l[j + 1]? := by
  unfold vecErase
  rw [List.getElem?_append, if_neg (by rw [List.length_take]; omega),
    List.getElem?_drop, List.length_take]
  by_cases hil : i ≤ l.length
  · have : i + 1 + (j - min i l.length) = j + 1 := by omega
    rw [this]
  · rw [List.getElem?_eq_none (by omega), List.getElem?_eq_none (by omega)]

theorem foldl_mul_const (c : ℕ) :
    ∀ (d a : ℕ), (List.range d).foldl (fun acc _ => acc * c) a = a * c ^ d := by
  intro d
  induction d with
  | zero => intro a; simp
  | succ d ih =>
    intro a
    rw [List.range_succ, List.foldl_append, ih]
    simp [pow_succ, Nat.mul_assoc]

theorem maxGridPairNum_eq_pow (s : MPMSolidBase) :
    s.maxGridPairNum = (2 * s.supportRadius + 1) ^ s.dim := by
  unfold maxGridPairNum
  rw [foldl_mul_const]
  ring_nf

/-! ### Structural lemmas about the container operations -/

theorem wellFormed_addParticle {s : MPMSolidBase} (p : SolidParticle)
    (hwf : wellFormed s) : wellFormed (s.addParticle p) := by
  obtain ⟨h1, h2, h3, h4⟩ := hwf
  refine ⟨?_, ?_, ?_, ?_⟩ <;>
    simp [addParticle, appendSpaceForWeightAndGradient, List.length_append,
      h1, h2, h3, h4]

theorem wellFormed_removeParticle {s : MPMSolidBase} (i : ℕ)
    (hwf : wellFormed s) : wellFormed (s.removeParticle i) := by
  obtain ⟨h1, h2, h3, h4⟩ := hwf
  unfold removeParticle
  split
  · exact ⟨h1, h2, h3, h4⟩
  · rename_i hlt
    have hi : i < s.particles.length := by omega
    refine ⟨?_, ?_, ?_, ?_⟩ <;>
      simp only [vecErase_length hi, vecErase_length (h1 ▸ hi),
        vecErase_length (h2 ▸ hi), vecErase_length (h3 ▸ hi),
        vecErase_length (h4 ▸ hi), h1, h2, h3, h4]

theorem wellFormed_applyOp {s : MPMSolidBase} (op : ContainerOp)
    (hwf : wellFormed s) : wellFormed (s.applyOp op) := by
  cases op with
  | add p => exact wellFormed_addParticle p hwf
  | removeAt i => exact wellFormed_removeParticle i hwf

theorem wellFormed_applyOps {s : MPMSolidBase} (ops : List ContainerOp)
    (hwf : wellFormed s) : wellFormed (s.applyOps ops) := by
  induction ops generalizing s with
  | nil => exact hwf
  | cons op ops ih => exact ih (wellFormed_applyOp op hwf)

theorem wellFormed_emptyContainer (dim r : ℕ) :
    wellFormed (emptyContainer dim r) := ⟨rfl, rfl, rfl, rfl⟩

/-- **C1.** For every sequence of `addParticle`/`removeParticle` operations
starting from an empty container, the boundary-flag, initial-volume,
cache-slot and valid-entry-counter sequences always have the same length as
the particle sequence: every structural mutation updates all of them at the
same index, so the parallel sequences stay in lock-step. -/
theorem C1_parallel_sequences_invariant (dim r : ℕ) (ops : List ContainerOp) :
    wellFormed ((emptyContainer dim r).applyOps ops) :=
  wellFormed_applyOps ops (wellFormed_emptyContainer dim r)

/-- **C4.** `addParticle(p)` always succeeds and appends exactly one entry to
each parallel sequence: the stored slot holds the cloned value of `p` (an
owned copy, so later mutation of the caller's particle cannot affect it), the
new boundary flag is `false`, the new initial volume is `p`'s volume at
insertion time, the new cache slot has `(2·supportRadius+1)^Dim`
default-constructed entries with valid-entry counter `0`, the count grows by
one, and reading back the last index returns the stored copy of `p`. -/
theorem C4_addParticle_appends (s : MPMSolidBase) (p : SolidParticle) :
    (s.addParticle p).particles = s.particles ++ [some p] ∧
    (s.addParticle p).is_bc_particle = s.is_bc_particle ++ [false] ∧
    (s.addParticle p).particle_initial_volume =
      s.particle_initial_volume ++ [p.volume] ∧
    (s.addParticle p).particle_grid_weight_and_gradient =
      s.particle_grid_weight_and_gradient ++
        [List.replicate ((2 * s.supportRadius + 1) ^ s.dim) defaultPair] ∧
    (s.addParticle p).particle_grid_pair_num =
      s.particle_grid_pair_num ++ [0] ∧
    (s.addParticle p).particleNum = s.particleNum + 1 ∧
    (s.addParticle p).particle ((s.addParticle p).particleNum - 1) =
      AtResult.ref (some p) := by
  have hlen : (s.addParticle p).particles = s.particles ++ [some p] := rfl
  have hnum : (s.addParticle p).particleNum = s.particles.length + 1 := by
    simp [particleNum, hlen, List.length_append]
  refine ⟨rfl, rfl, rfl, ?_, rfl, hnum, ?_⟩
  · show s.particle_grid_weight_and_gradient ++ [_] = _
    rw [maxGridPairNum_eq_pow]
  · rw [hnum, Nat.add_sub_cancel]
    unfold particle
    rw [if_neg (by rw [hlen]; simp [List.length_append]), hlen,
      List.getD_eq_getElem?_getD, List.getElem?_concat_length]
    rfl

/-- **C6.** `removeParticle` with an out-of-range index reports a warning and
performs no mutation at all: the state is returned unchanged. -/
theorem C6_removeParticle_out_of_range (s : MPMSolidBase) (i : ℕ)
    (hi : s.particleNum ≤ i) : s.removeParticle i = s := by
  have h' : s.particles.length ≤ i := hi
  unfold removeParticle
  rw [if_pos h']

/-- Witness for C6 at a concrete input: removing index 5 from a one-particle
container is a no-op. -/
theorem C6_removeParticle_out_of_range_witness :
    ((emptyContainer 2 1).addParticle pA).removeParticle 5 =
      (emptyContainer 2 1).addParticle pA :=
  C6_removeParticle_out_of_range _ 5 (by decide)

/-- **C7.** The read accessor `particle(index)` (the `const` and non-`const`
overloads run the same check) returns a reference to the stored slot when the
index is in bounds, and on an out-of-bounds index reports an error and
terminates the process (`std::exit`) instead of returning. -/
theorem C7_particle_accessor (s : MPMSolidBase) (i : ℕ) :
    (i < s.particleNum → s.particle i = AtResult.ref (s.particles.getD i none)) ∧
    (s.particleNum ≤ i → s.particle i = AtResult.fatal) := by
  constructor
  · intro h
    have h' : i < s.particles.length := h
    unfold particle
    rw [if_neg (by omega)]
  · intro h
    have h' : s.particles.length ≤ i := h
    unfold particle
    rw [if_pos h']

/-- Witness for C7 at concrete inputs: index 0 of a one-particle container is
returned, index 3 is fatal. -/
theorem C7_particle_accessor_witness :
    ((emptyContainer 2 1).addParticle pA).particle 0 =
      AtResult.ref (((emptyContainer 2 1).addParticle pA).particles.getD 0 none) ∧
    ((emptyContainer 2 1).addParticle pA).particle 3 = AtResult.fatal :=
  ⟨(C7_particle_accessor _ 0).1 (by decide),
   (C7_particle_accessor _ 3).2 (by decide)⟩

/-- **C5.** `removeParticle(i)` on an in-bounds index decreases the particle
count by exactly one and erases index `i` from every parallel sequence,
shifting all later entries down by one and leaving earlier entries in place
(erase-at-index semantics, not swap-and-pop); in particular the accessor at
any `j ≥ i` afterwards returns what the accessor returned at `j+1` before. -/
theorem C5_removeParticle_shifts (s : MPMSolidBase) (i : ℕ)
    (hwf : wellFormed s) (hi : i < s.particleNum) :
    (s.removeParticle i).particleNum = s.particleNum - 1 ∧
    (∀ j, j < i →
      (s.removeParticle i).particles[j]? = s.particles[j]? ∧
      (s.removeParticle i).is_bc_particle[j]? = s.is_bc_particle[j]? ∧
      (s.removeParticle i).particle_initial_volume[j]? =
        s.particle_initial_volume[j]? ∧
      (s.removeParticle i).particle_grid_weight_and_gradient[j]? =
        s.particle_grid_weight_and_gradient[j]? ∧
      (s.removeParticle i).particle_grid_pair_num[j]? =
        s.particle_grid_pair_num[j]?) ∧
    (∀ j, i ≤ j →
      (s.removeParticle i).particles[j]? = s.particles[j + 1]? ∧
      (s.removeParticle i).is_bc_particle[j]? = s.is_bc_particle[j + 1]? ∧
      (s.removeParticle i).particle_initial_volume[j]? =
        s.particle_initial_volume[j + 1]? ∧
      (s.removeParticle i).particle_grid_weight_and_gradient[j]? =
        s.particle_grid_weight_and_gradient[j + 1]? ∧
      (s.removeParticle i).particle_grid_pair_num[j]? =
        s.particle_grid_pair_num[j + 1]? ∧
      (s.removeParticle i).particle j = s.particle (j + 1)) := by
  obtain ⟨h1, h2, h3, h4⟩ := hwf
  have hi' : i < s.particles.length := hi
  have hrm : s.removeParticle i =
      { s with
        particles := vecErase s.particles i
        particle_initial_volume := vecErase s.particle_initial_volume i
        is_bc_particle := vecErase s.is_bc_particle i
        particle_grid_weight_and_gradient :=
          vecErase s.particle_grid_weight_and_gradient i
        particle_grid_pair_num := vecErase s.particle_grid_pair_num i } := by
    unfold removeParticle
    rw [if_neg (by omega)]
  have hlen : (s.removeParticle i).particleNum = s.particleNum - 1 := by
    rw [hrm]
    show (vecErase s.particles i).length = s.particles.length - 1
    exact vecErase_length hi'
  refine ⟨hlen, ?_, ?_⟩
  · intro j hj
    rw [hrm]
    exact ⟨getElem?_vecErase_lt hj, getElem?_vecErase_lt hj,
      getElem?_vecErase_lt hj, getElem?_vecErase_lt hj,
      getElem?_vecErase_lt hj⟩
  · intro j hj
    have hp : (s.removeParticle i).particles[j]? = s.particles[j + 1]? := by
      rw [hrm]; exact getElem?_vecErase_ge hj
    refine ⟨hp, by rw [hrm]; exact getElem?_vecErase_ge hj,
      by rw [hrm]; exact getElem?_vecErase_ge hj,
      by rw [hrm]; exact getElem?_vecErase_ge hj,
      by rw [hrm]; exact getElem?_vecErase_ge hj, ?_⟩
    have hlen' : (s.removeParticle i).particles.length = s.particles.length - 1 :=
      hlen
    by_cases hjb : j < s.particles.length - 1
    · unfold particle
      rw [if_neg (by omega), if_neg (by omega),
        List.getD_eq_getElem?_getD, List.getD_eq_getElem?_getD, hp]
    · unfold particle
      rw [if_pos (by omega), if_pos (by omega)]

/-- Witness for C5 at a concrete input: removing index 0 from a two-particle
container leaves one particle, and index 0 afterwards holds what index 1 held
before. -/
theorem C5_removeParticle_shifts_witness :
    ((((emptyContainer 2 1).addParticle pA).addParticle pB).removeParticle
        0).particleNum =
      (((emptyContainer 2 1).addParticle pA).addParticle pB).particleNum - 1 ∧
    ((((emptyContainer 2 1).addParticle pA).addParticle pB).removeParticle
        0).particles[0]? =
      (((emptyContainer 2 1).addParticle pA).addParticle pB).particles[1]? := by
  have h := C5_removeParticle_shifts
    (((emptyContainer 2 1).addParticle pA).addParticle pB) 0
    (by decide) (by decide)
  exact ⟨h.1, ((h.2.2 0 (Nat.le_refl 0)).1)⟩

/-! ### Lemmas about the assignment loop of `setParticles` -/

theorem setParticlesStep_of_none (input : List (Option SolidParticle))
    (t : MPMSolidBase) {i : ℕ} (h : input.getD i none = none) :
    setParticlesStep input t i = t := by
  unfold setParticlesStep
  rw [h]

theorem setParticlesStep_preserved (input : List (Option SolidParticle))
    (t : MPMSolidBase) (i : ℕ) :
    (setParticlesStep input t i).dim = t.dim ∧
    (setParticlesStep input t i).supportRadius = t.supportRadius ∧
    (setParticlesStep input t i).particle_grid_weight_and_gradient =
      t.particle_grid_weight_and_gradient ∧
    (setParticlesStep input t i).particle_grid_pair_num =
      t.particle_grid_pair_num ∧
    (setParticlesStep input t i).particles.length = t.particles.length ∧
    (setParticlesStep input t i).is_bc_particle.length =
      t.is_bc_particle.length ∧
    (setParticlesStep input t i).particle_initial_volume.length =
      t.particle_initial_volume.length := by
  unfold setParticlesStep
  cases input.getD i none <;> simp [List.length_set]

theorem setParticlesStep_getElem?_ne (input : List (Option SolidParticle))
    (t : MPMSolidBase) {i j : ℕ} (hij : i ≠ j) :
    (setParticlesStep input t i).particles[j]? = t.particles[j]? ∧
    (setParticlesStep input t i).is_bc_particle[j]? = t.is_bc_particle[j]? ∧
    (setParticlesStep input t i).particle_initial_volume[j]? =
      t.particle_initial_volume[j]? := by
  unfold setParticlesStep
  cases input.getD i none
  · exact ⟨rfl, rfl, rfl⟩
  · exact ⟨List.getElem?_set_ne hij, List.getElem?_set_ne hij,
      List.getElem?_set_ne hij⟩

theorem setParticlesStep_getElem?_self (input : List (Option SolidParticle))
    (t : MPMSolidBase) {i : ℕ} {p : SolidParticle}
    (h : input.getD i none = some p) (h1 : i < t.particles.length)
    (h2 : i < t.is_bc_particle.length)
    (h3 : i < t.particle_initial_volume.length) :
    (setParticlesStep input t i).particles[i]? = some (some p) ∧
    (setParticlesStep input t i).is_bc_particle[i]? = some false ∧
    (setParticlesStep input t i).particle_initial_volume[i]? =
      some p.volume := by
  unfold setParticlesStep
  rw [h]
  exact ⟨List.getElem?_set_self h1, List.getElem?_set_self h2,
    List.getElem?_set_self h3⟩

theorem setLoop_preserved (input : List (Option SolidParticle)) :
    ∀ (n : ℕ) (s : MPMSolidBase),
    ((List.range n).foldl (setParticlesStep input) s).dim = s.dim ∧
    ((List.range n).foldl (setParticlesStep input) s).supportRadius =
      s.supportRadius ∧
    ((List.range n).foldl (setParticlesStep input)
        s).particle_grid_weight_and_gradient =
      s.particle_grid_weight_and_gradient ∧
    ((List.range n).foldl (setParticlesStep input) s).particle_grid_pair_num =
      s.particle_grid_pair_num ∧
    ((List.range n).foldl (setParticlesStep input) s).particles.length =
      s.particles.length ∧
    ((List.range n).foldl (setParticlesStep input) s).is_bc_particle.length =
      s.is_bc_particle.length ∧
    ((List.range n).foldl (setParticlesStep input)
        s).particle_initial_volume.length =
      s.particle_initial_volume.length := by
  intro n
  induction n with
  | zero => intro s; exact ⟨rfl, rfl, rfl, rfl, rfl, rfl, rfl⟩
  | succ n ih =>
    intro s
    rw [List.range_succ, List.foldl_append, List.foldl_cons, List.foldl_nil]
    obtain ⟨s1, s2, s3, s4, s5, s6, s7⟩ :=
      setParticlesStep_preserved input
        ((List.range n).foldl (setParticlesStep input) s) n
    obtain ⟨i1, i2, i3, i4, i5, i6, i7⟩ := ih s
    exact ⟨s1.trans i1, s2.trans i2, s3.trans i3, s4.trans i4, s5.trans i5,
      s6.trans i6, s7.trans i7⟩

theorem setLoop_getElem?_of_none (input : List (Option SolidParticle))
    {j : ℕ} (hnull : input.getD j none = none) :
    ∀ (n : ℕ) (s : MPMSolidBase),
    ((List.range n).foldl (setParticlesStep input) s).particles[j]? =
      s.particles[j]? ∧
    ((List.range n).foldl (setParticlesStep input) s).is_bc_particle[j]? =
      s.is_bc_particle[j]? ∧
    ((List.range n).foldl (setParticlesStep input)
        s).particle_initial_volume[j]? =
      s.particle_initial_volume[j]? := by
  intro n
  induction n with
  | zero => intro s; exact ⟨rfl, rfl, rfl⟩
  | succ n ih =>
    intro s
    rw [List.range_succ, List.foldl_append, List.foldl_cons, List.foldl_nil]
    obtain ⟨i1, i2, i3⟩ := ih s
    by_cases hnj : n = j
    · rw [setParticlesStep_of_none input _ (hnj ▸ hnull)]
      exact ⟨i1, i2, i3⟩
    · obtain ⟨e1, e2, e3⟩ :=
        setParticlesStep_getElem?_ne input
          ((List.range n).foldl (setParticlesStep input) s) hnj
      exact ⟨e1.trans i1, e2.trans i2, e3.trans i3⟩

theorem setLoop_getElem?_of_some (input : List (Option SolidParticle))
    {j : ℕ} {p : SolidParticle} (hp : input.getD j none = some p) :
    ∀ (n : ℕ) (s : MPMSolidBase), j < n → j < s.particles.length →
    j < s.is_bc_particle.length → j < s.particle_initial_volume.length →
    ((List.range n).foldl (setParticlesStep input) s).particles[j]? =
      some (some p) ∧
    ((List.range n).foldl (setParticlesStep input) s).is_bc_particle[j]? =
      some false ∧
    ((List.range n).foldl (setParticlesStep input)
        s).particle_initial_volume[j]? =
      some p.volume := by
  intro n
  induction n with
  | zero => intro s hj _ _ _; omega
  | succ n ih =>
    intro s hj h1 h2 h3
    rw [List.range_succ, List.foldl_append, List.foldl_cons, List.foldl_nil]
    by_cases hjn : j < n
    · obtain ⟨e1, e2, e3⟩ :=
        setParticlesStep_getElem?_ne input
          ((List.range n).foldl (setParticlesStep input) s) (by omega : n ≠ j)
      obtain ⟨i1, i2, i3⟩ := ih s hjn h1 h2 h3
      exact ⟨e1.trans i1, e2.trans i2, e3.trans i3⟩
    · have hjeq : j = n := by omega
      subst hjeq
      obtain ⟨_, _, _, _, l5, l6, l7⟩ := setLoop_preserved input j s
      exact setParticlesStep_getElem?_self input _ hp (l5 ▸ h1) (l6 ▸ h2)
        (l7 ▸ h3)

theorem setParticles_cache (s : MPMSolidBase)
    (input : List (Option SolidParticle)) :
    (s.setParticles input).particle_grid_weight_and_gradient =
      vecResize s.particle_grid_weight_and_gradient input.length
        (List.replicate s.maxGridPairNum defaultPair) ∧
    (s.setParticles input).particle_grid_pair_num =
      vecResize s.particle_grid_pair_num input.length 0 := by
  unfold setParticles
  obtain ⟨_, _, h3, h4, _, _, _⟩ :=
    setLoop_preserved input input.length
      (allocateSpaceForWeightAndGradient
        { s with
          particles := vecResize s.particles input.length none
          is_bc_particle := vecResize s.is_bc_particle input.length false
          particle_initial_volume :=
            vecResize s.particle_initial_volume input.length 0 })
  rw [h3, h4]
  constructor
  · show vecResize s.particle_grid_weight_and_gradient
      (vecResize s.particles input.length none).length
      (List.replicate s.maxGridPairNum defaultPair) = _
    rw [vecResize_length]
  · show vecResize s.particle_grid_pair_num
      (vecResize s.particles input.length none).length 0 = _
    rw [vecResize_length]

/-- **C2 (amended).** After `setParticles`, the cache-slot sequence and the
valid-entry-counter sequence are resized to the input length; slots at
indices at or beyond the previous particle count are freshly created with
exactly `(2·supportRadius+1)^Dim` default entries and counter `0`, but slots
at indices that already existed before the call retain their previous
contents unchanged (`std::vector::resize` only fills newly created tail
elements): they are neither re-sized for the current kernel nor is their
counter reset. -/
theorem C2_amended_setParticles_cache_resize (s : MPMSolidBase)
    (input : List (Option SolidParticle)) (hwf : wellFormed s) :
    (s.setParticles input).particle_grid_weight_and_gradient.length =
      input.length ∧
    (s.setParticles input).particle_grid_pair_num.length = input.length ∧
    (∀ j, j < s.particleNum → j < input.length →
      (s.setParticles input).particle_grid_weight_and_gradient[j]? =
        s.particle_grid_weight_and_gradient[j]? ∧
      (s.setParticles input).particle_grid_pair_num[j]? =
        s.particle_grid_pair_num[j]?) ∧
    (∀ j, s.particleNum ≤ j → j < input.length →
      (s.setParticles input).particle_grid_weight_and_gradient[j]? =
        some (List.replicate ((2 * s.supportRadius + 1) ^ s.dim)
          defaultPair) ∧
      (s.setParticles input).particle_grid_pair_num[j]? = some 0) := by
  obtain ⟨h1, h2, h3, h4⟩ := hwf
  have hpn : s.particleNum = s.particles.length := rfl
  obtain ⟨hwg, hnum⟩ := setParticles_cache s input
  refine ⟨by rw [hwg, vecResize_length], by rw [hnum, vecResize_length],
    ?_, ?_⟩
  · intro j hj hjn
    constructor
    · rw [hwg]; exact getElem?_vecResize_kept (by omega : j < _) hjn
    · rw [hnum]; exact getElem?_vecResize_kept (by omega : j < _) hjn
  · intro j hj hjn
    constructor
    · rw [hwg, getElem?_vecResize_new (by omega : _ ≤ j) hjn,
        maxGridPairNum_eq_pow]
    · rw [hnum]; exact getElem?_vecResize_new (by omega : _ ≤ j) hjn

/-- Witness for the amended C2 at a concrete input: a one-particle container
with kernel support radius 1 in dimension 2, after `setParticles` with a
two-element input, has two cache slots; slot 1 is fresh (9 entries, counter
0) and slot 0 kept its previous contents. -/
theorem C2_amended_setParticles_cache_resize_witness :
    (((emptyContainer 2 1).addParticle pA).setParticles
        [some pA, some pB]).particle_grid_weight_and_gradient.length = 2 ∧
    (((emptyContainer 2 1).addParticle pA).setParticles
        [some pA, some pB]).particle_grid_weight_and_gradient[1]? =
      some (List.replicate ((2 * 1 + 1) ^ 2) defaultPair) ∧
    (((emptyContainer 2 1).addParticle pA).setParticles
        [some pA, some pB]).particle_grid_pair_num[0]? =
      ((emptyContainer 2 1).addParticle pA).particle_grid_pair_num[0]? := by
  have h := C2_amended_setParticles_cache_resize
    ((emptyContainer 2 1).addParticle pA) [some pA, some pB] (by decide)
  exact ⟨h.1, (h.2.2.2 1 (by decide) (by decide)).1,
    (h.2.2.1 0 (by decide) (by decide)).2⟩

/-- Counterexample to **C2** as stated: starting from a one-particle
container whose cache slot was sized for support radius 1 in dimension 2
(9 entries), replace the kernel by one with support radius 2 and call
`setParticles` with a one-element input.  The claim requires every slot to
have `(2·2+1)^2 = 25` entries afterwards, but the surviving slot 0 still has
its old 9 entries: `std::vector::resize(n, fill)` does not touch existing
elements. -/
theorem C2_counterexample_stale_slot_size :
    (((((emptyContainer 2 1).addParticle pA).setKernelSupportRadius
            2).setParticles [some pA]).particle_grid_weight_and_gradient.getD
        0 []).length = 9 ∧
    (2 * ((((emptyContainer 2 1).addParticle pA).setKernelSupportRadius
            2).setParticles [some pA]).supportRadius + 1) ^
        ((((emptyContainer 2 1).addParticle pA).setKernelSupportRadius
            2).setParticles [some pA]).dim = 25 ∧
    (9 : ℕ) ≠ 25 := by
  refine ⟨by decide, by decide, by decide⟩

/-- **C3 (evaluation at the failing input).** Starting from a container that
already holds one particle (`pA` at slot 0), `setParticles [NULL, pB]` gives
count 2 and stores the clone of `pB` at slot 1 as the claim says, but slot 0
is *not* left absent: it still holds the old pointer (whose pointee was
deleted at the start of `setParticles`), because the NULL input entry is
skipped without clearing the surviving slot. -/
theorem C3_setParticles_null_keeps_stale_slot :
    (((emptyContainer 2 1).addParticle pA).setParticles
        [none, some pB]).particleNum = 2 ∧
    (((emptyContainer 2 1).addParticle pA).setParticles
        [none, some pB]).particles.getD 0 none = some pA ∧
    (((emptyContainer 2 1).addParticle pA).setParticles
        [none, some pB]).particles.getD 1 none = some pB := by
  refine ⟨by decide, by decide, by decide⟩

/-- **C10.** A NULL entry of the `setParticles` input at an index that is
smaller than both the previous particle count and the input size is skipped:
the boundary flag and the initial-volume entry at that index survive the
resize and keep the values they had before the call (they are not reset to
`false` or to a freshly captured volume). -/
theorem C10_null_survivor_keeps_flag_and_volume (s : MPMSolidBase)
    (input : List (Option SolidParticle)) (i : ℕ) (hwf : wellFormed s)
    (hiold : i < s.particleNum) (hinew : i < input.length)
    (hnull : input.getD i none = none) :
    (s.setParticles input).is_bc_particle.getD i false =
      s.is_bc_particle.getD i false ∧
    (s.setParticles input).particle_initial_volume.getD i 0 =
      s.particle_initial_volume.getD i 0 := by
  obtain ⟨h1, h2, h3, h4⟩ := hwf
  have hpn : s.particleNum = s.particles.length := rfl
  have hilen : i < s.is_bc_particle.length := by omega
  have hvlen : i < s.particle_initial_volume.length := by omega
  constructor
  · rw [List.getD_eq_getElem?_getD, List.getD_eq_getElem?_getD]
    have hh : (s.setParticles input).is_bc_particle[i]? =
        s.is_bc_particle[i]? := by
      unfold setParticles
      rw [(setLoop_getElem?_of_none input hnull input.length _).2.1]
      exact getElem?_vecResize_kept hilen hinew
    rw [hh]
  · rw [List.getD_eq_getElem?_getD, List.getD_eq_getElem?_getD]
    have hh : (s.setParticles input).particle_initial_volume[i]? =
        s.particle_initial_volume[i]? := by
      unfold setParticles
      rw [(setLoop_getElem?_of_none input hnull input.length _).2.2]
      exact getElem?_vecResize_kept hvlen hinew
    rw [hh]

/-- Witness for C10 at a concrete input: a container holding `pA` with its
boundary flag set to true keeps that flag (and the initial volume) at slot 0
across `setParticles [NULL, pB]`. -/
theorem C10_null_survivor_keeps_flag_and_volume_witness :
    ((((emptyContainer 2 1).addParticle pA).addBCParticle 0).setParticles
        [none, some pB]).is_bc_particle.getD 0 false =
      (((emptyContainer 2 1).addParticle pA).addBCParticle
          0).is_bc_particle.getD 0 false ∧
    ((((emptyContainer 2 1).addParticle pA).addBCParticle 0).setParticles
        [none, some pB]).particle_initial_volume.getD 0 0 =
      (((emptyContainer 2 1).addParticle pA).addBCParticle
          0).particle_initial_volume.getD 0 0 :=
  C10_null_survivor_keeps_flag_and_volume
    (((emptyContainer 2 1).addParticle pA).addBCParticle 0) [none, some pB] 0
    (by decide) (by decide) (by decide) (by decide)

/-! ### Lemmas about the min-reduction of `maxParticleVelocityNorm` -/

theorem foldl_condMin_le_init :
    ∀ (l : List ℚ) (a : ℚ),
      l.foldl (fun m x => if x < m then x else m) a ≤ a := by
  intro l
  induction l with
  | nil => intro a; exact le_refl a
  | cons y l ih =>
    intro a
    refine le_trans (ih _) ?_
    show (if y < a then y else a) ≤ a
    by_cases h : y < a
    · rw [if_pos h]; exact le_of_lt h
    · rw [if_neg h]

theorem foldl_condMin_le_mem :
    ∀ (l : List ℚ) (a x : ℚ), x ∈ l →
      l.foldl (fun m x => if x < m then x else m) a ≤ x := by
  intro l
  induction l with
  | nil => intro a x hx; cases hx
  | cons y l ih =>
    intro a x hx
    rcases List.mem_cons.mp hx with hxy | hxl
    · subst hxy
      refine le_trans (foldl_condMin_le_init l _) ?_
      show (if x < a then x else a) ≤ x
      by_cases h : x < a
      · rw [if_pos h]
      · rw [if_neg h]; exact le_of_not_lt h
    · exact ih _ x hxl

theorem foldl_condMin_eq_init_or_mem :
    ∀ (l : List ℚ) (a : ℚ),
      l.foldl (fun m x => if x < m then x else m) a = a ∨
      l.foldl (fun m x => if x < m then x else m) a ∈ l := by
  intro l
  induction l with
  | nil => intro a; exact Or.inl rfl
  | cons y l ih =>
    intro a
    rcases ih (if y < a then y else a) with h | h
    · by_cases hy : y < a
      · rw [if_pos hy] at h
        exact Or.inr (by rw [List.foldl_cons, if_pos hy, h]; exact
          List.mem_cons_self y l)
      · rw [if_neg hy] at h
        exact Or.inl (by rw [List.foldl_cons, if_neg hy, h])
    · exact Or.inr (by rw [List.foldl_cons]; exact List.mem_cons_of_mem y h)

/-- **C8.** `maxParticleVelocityNorm` returns 0 on an empty container; on a
non-empty container it returns the square root of the *minimum* squared
velocity norm across all particle slots (the reduction tracks the minimum,
despite the function's name); on a single particle it returns that particle's
velocity norm exactly.  The hypothesis that every squared norm is at most
`limitsMax` embeds the finiteness of machine scalars, which never exceed
`std::numeric_limits<Scalar>::max()`. -/
theorem C8_maxParticleVelocityNorm_min (M : ℚ) (s : MPMSolidBase)
    (hM : ∀ o ∈ s.particles, slotVelocityNormSq o ≤ M) :
    (s.particles = [] → maxParticleVelocityNorm M s = 0) ∧
    (s.particles ≠ [] →
      (∃ o ∈ s.particles,
        maxParticleVelocityNorm M s = Real.sqrt (slotVelocityNormSq o)) ∧
      (∀ o ∈ s.particles,
        maxParticleVelocityNorm M s ≤ Real.sqrt (slotVelocityNormSq o))) ∧
    (∀ p : SolidParticle, s.particles = [some p] →
      maxParticleVelocityNorm M s = Real.sqrt (normSquared p.velocity)) := by
  have hfold : minVelFold M s =
      (s.particles.map slotVelocityNormSq).foldl
        (fun m x => if x < m then x else m) M := by
    unfold minVelFold
    rw [List.foldl_map]
  refine ⟨?_, ?_, ?_⟩
  · intro h
    unfold maxParticleVelocityNorm
    rw [if_pos (by rw [h]; rfl)]
  · intro h
    have hne : (maxParticleVelocityNorm M s : ℝ) =
        Real.sqrt (minVelFold M s) := by
      unfold maxParticleVelocityNorm
      rw [if_neg (by simp only [List.isEmpty_iff]; exact h)]
    constructor
    · have hmem : minVelFold M s ∈ s.particles.map slotVelocityNormSq := by
        rcases foldl_condMin_eq_init_or_mem
            (s.particles.map slotVelocityNormSq) M with he | hm
        · obtain ⟨o0, ho0⟩ := List.exists_mem_of_ne_nil s.particles h
          have hv0 : slotVelocityNormSq o0 ∈
              s.particles.map slotVelocityNormSq :=
            List.mem_map_of_mem slotVelocityNormSq ho0
          have h1 : minVelFold M s ≤ slotVelocityNormSq o0 := by
            rw [hfold]
            exact foldl_condMin_le_mem
              (s.particles.map slotVelocityNormSq) M _ hv0
          have h2 : slotVelocityNormSq o0 ≤ minVelFold M s := by
            rw [hfold, he]
            exact hM o0 ho0
          rw [le_antisymm h1 h2]
          exact hv0
        · rw [hfold]; exact hm
      obtain ⟨o, ho, hoeq⟩ := List.mem_map.mp hmem
      exact ⟨o, ho, by rw [hne, hoeq]⟩
    · intro o ho
      rw [hne]
      have hle : minVelFold M s ≤ slotVelocityNormSq o := by
        rw [hfold]
        exact foldl_condMin_le_mem _ M _ (List.mem_map_of_mem _ ho)
      exact Real.sqrt_le_sqrt (by exact_mod_cast hle)
  · intro p hp
    have hple : slotVelocityNormSq (some p) ≤ M :=
      hM (some p) (by rw [hp]; exact List.mem_cons_self _ _)
    have hmv : minVelFold M s = normSquared p.velocity := by
      unfold minVelFold
      rw [hp, List.foldl_cons, List.foldl_nil]
      show (if slotVelocityNormSq (some p) < M
          then slotVelocityNormSq (some p) else M) = _
      by_cases hlt : slotVelocityNormSq (some p) < M
      · rw [if_pos hlt]; rfl
      · rw [if_neg hlt]
        have : slotVelocityNormSq (some p) = M := le_antisymm hple
          (le_of_not_lt hlt)
        rw [← this]; rfl
    unfold maxParticleVelocityNorm
    rw [if_neg (by rw [hp]; simp), hmv]

/-- Witness for C8 at a concrete input: a single particle with velocity
`(3,4)` (norm 5) under `limitsMax = 100`; the function returns exactly 5. -/
theorem C8_maxParticleVelocityNorm_min_witness :
    maxParticleVelocityNorm 100 ((emptyContainer 2 1).addParticle pC) =
      Real.sqrt (normSquared pC.velocity) ∧
    Real.sqrt (normSquared pC.velocity) = 5 := by
  constructor
  · refine (C8_maxParticleVelocityNorm_min 100
      ((emptyContainer 2 1).addParticle pC) ?_).2.2 pC rfl
    intro o ho
    have ho' : o ∈ [some pC] := ho
    rcases List.mem_singleton.mp ho' with rfl
    show normSquared pC.velocity ≤ 100
    norm_num [normSquared, pC]
  · have hq : normSquared pC.velocity = 25 := by norm_num [normSquared, pC]
    have h25 : ((25 : ℚ) : ℝ) = (5 : ℝ) ^ 2 := by norm_num
    rw [hq, h25, Real.sqrt_sq (by norm_num : (0 : ℝ) ≤ 5)]

/-! ### Lemmas about boundary-condition marking -/

theorem addBCParticle_particles (s : MPMSolidBase) (i : ℕ) :
    (s.addBCParticle i).particles = s.particles := by
  unfold addBCParticle
  split <;> rfl

theorem addBCParticle_is_bc_length (s : MPMSolidBase) (i : ℕ) :
    (s.addBCParticle i).is_bc_particle.length = s.is_bc_particle.length := by
  unfold addBCParticle
  split
  · rfl
  · exact List.length_set s.is_bc_particle i true

theorem addBCParticle_is_bc_getElem? (s : MPMSolidBase) (i j : ℕ) :
    (s.addBCParticle i).is_bc_particle[j]? =
      if j = i ∧ i < s.particles.length ∧ i < s.is_bc_particle.length
      then some true else s.is_bc_particle[j]? := by
  unfold addBCParticle
  by_cases hi : i ≥ s.particles.length
  · rw [if_pos hi, if_neg (fun hc => absurd hc.2.1 (by omega))]
  · rw [if_neg hi]
    show (s.is_bc_particle.set i true)[j]? = _
    by_cases hj : j = i
    · subst hj
      by_cases hlen : j < s.is_bc_particle.length
      · rw [if_pos ⟨rfl, by omega, hlen⟩, List.getElem?_set_self hlen]
      · rw [if_neg (fun hc => hlen hc.2.2), List.getElem?_set,
          if_pos rfl, if_neg hlen,
          List.getElem?_eq_none (le_of_not_lt hlen)]
    · rw [if_neg (fun hc => hj hc.1),
        List.getElem?_set_ne (fun hc => hj hc.symm)]

theorem addBCParticles_particles (idxs : List ℕ) :
    ∀ (s : MPMSolidBase), (s.addBCParticles idxs).particles = s.particles := by
  induction idxs with
  | nil => intro s; rfl
  | cons i idxs ih =>
    intro s
    show ((s.addBCParticle i).addBCParticles idxs).particles = _
    rw [ih, addBCParticle_particles]

theorem addBCParticles_is_bc_length (idxs : List ℕ) :
    ∀ (s : MPMSolidBase),
      (s.addBCParticles idxs).is_bc_particle.length =
        s.is_bc_particle.length := by
  induction idxs with
  | nil => intro s; rfl
  | cons i idxs ih =>
    intro s
    show ((s.addBCParticle i).addBCParticles idxs).is_bc_particle.length = _
    rw [ih, addBCParticle_is_bc_length]

theorem addBCParticles_is_bc_getElem? (idxs : List ℕ) :
    ∀ (s : MPMSolidBase) (j : ℕ),
    (s.addBCParticles idxs).is_bc_particle[j]? =
      if j ∈ idxs ∧ j < s.particles.length ∧ j < s.is_bc_particle.length
      then some true else s.is_bc_particle[j]? := by
  induction idxs with
  | nil =>
    intro s j
    show s.is_bc_particle[j]? = _
    rw [if_neg (fun hc => by cases hc.1)]
  | cons i idxs ih =>
    intro s j
    show ((s.addBCParticle i).addBCParticles idxs).is_bc_particle[j]? = _
    rw [ih (s.addBCParticle i) j, addBCParticle_particles,
      addBCParticle_is_bc_length, addBCParticle_is_bc_getElem?]
    by_cases h1 : j ∈ idxs <;> by_cases h2 : j < s.particles.length <;>
      by_cases h3 : j < s.is_bc_particle.length <;> by_cases h4 : j = i <;>
      simp_all [List.mem_cons]

/-- **C9 (amended).** Marking boundary particles with `addBCParticle i` and
then `addBCParticles idxs` sets the flag at every valid index of
`{i} ∪ idxs` and leaves all other flags with the value they had before: a
flag ends up `true` exactly when it was already `true` or its index is among
the marked ones (so from an all-`false` container the flags end up `true`
exactly on the union of the valid marked indices).  Invalid indices in the
batch are ignored without blocking the valid ones, and re-applying the same
marking is idempotent. -/
theorem C9_amended_boundary_marking (s : MPMSolidBase) (i : ℕ)
    (idxs : List ℕ) (hwf : wellFormed s) (j : ℕ) (hj : j < s.particleNum) :
    (((s.addBCParticle i).addBCParticles idxs).is_bc_particle.getD j false =
        true ↔
      s.is_bc_particle.getD j false = true ∨ j = i ∨ j ∈ idxs) ∧
    ((((s.addBCParticle i).addBCParticles idxs).addBCParticle
        i).addBCParticles idxs).is_bc_particle.getD j false =
      ((s.addBCParticle i).addBCParticles idxs).is_bc_particle.getD j
        false := by
  obtain ⟨h1, h2, h3, h4⟩ := hwf
  have hpn : s.particleNum = s.particles.length := rfl
  have hjp : j < s.particles.length := by omega
  have hjb : j < s.is_bc_particle.length := by omega
  have e1 : ((s.addBCParticle i).addBCParticles idxs).is_bc_particle[j]? =
      if j ∈ idxs ∧ j < s.particles.length ∧ j < s.is_bc_particle.length
      then some true
      else if j = i ∧ i < s.particles.length ∧ i < s.is_bc_particle.length
      then some true
      else s.is_bc_particle[j]? := by
    rw [addBCParticles_is_bc_getElem?, addBCParticle_particles,
      addBCParticle_is_bc_length, addBCParticle_is_bc_getElem?]
  have ht1p : ((s.addBCParticle i).addBCParticles idxs).particles =
      s.particles := by
    rw [addBCParticles_particles, addBCParticle_particles]
  have ht1b : ((s.addBCParticle i).addBCParticles
      idxs).is_bc_particle.length = s.is_bc_particle.length := by
    rw [addBCParticles_is_bc_length, addBCParticle_is_bc_length]
  have e2 : ((((s.addBCParticle i).addBCParticles idxs).addBCParticle
        i).addBCParticles idxs).is_bc_particle[j]? =
      if j ∈ idxs ∧ j < s.particles.length ∧ j < s.is_bc_particle.length
      then some true
      else if j = i ∧ i < s.particles.length ∧ i < s.is_bc_particle.length
      then some true
      else ((s.addBCParticle i).addBCParticles idxs).is_bc_particle[j]? := by
    rw [addBCParticles_is_bc_getElem?, addBCParticle_particles,
      addBCParticle_is_bc_length, addBCParticle_is_bc_getElem?, ht1p, ht1b]
  constructor
  · rw [List.getD_eq_getElem?_getD, e1, List.getD_eq_getElem?_getD]
    by_cases hm : j ∈ idxs
    · rw [if_pos ⟨hm, hjp, hjb⟩]
      simp [hm]
    · by_cases hji : j = i
      · rw [if_neg (fun hc => hm hc.1),
          if_pos ⟨hji, by omega, by omega⟩]
        simp [hji]
      · rw [if_neg (fun hc => hm hc.1), if_neg (fun hc => hji hc.1)]
        simp [hm, hji]
  · rw [List.getD_eq_getElem?_getD, List.getD_eq_getElem?_getD, e2]
    by_cases hc1 : j ∈ idxs ∧ j < s.particles.length ∧
        j < s.is_bc_particle.length
    · rw [if_pos hc1, e1, if_pos hc1]
    · rw [if_neg hc1]
      by_cases hc2 : j = i ∧ i < s.particles.length ∧
          i < s.is_bc_particle.length
      · rw [if_pos hc2, e1, if_neg hc1, if_pos hc2]
      · rw [if_neg hc2]

/-- Witness for the amended C9 at a concrete input: on a two-particle
container, `addBCParticle 0` then `addBCParticles [5, 1]` (5 is invalid)
ends with flag 1 true, and re-applying the same marking changes nothing at
index 1. -/
theorem C9_amended_boundary_marking_witness :
    ((((((emptyContainer 2 1).addParticle pA).addParticle
          pB).addBCParticle 0).addBCParticles
        [5, 1]).is_bc_particle.getD 1 false = true ↔
      (((emptyContainer 2 1).addParticle pA).addParticle
          pB).is_bc_particle.getD 1 false = true ∨ (1 : ℕ) = 0 ∨
        (1 : ℕ) ∈ [5, 1]) ∧
    (((((((emptyContainer 2 1).addParticle pA).addParticle
          pB).addBCParticle 0).addBCParticles [5, 1]).addBCParticle
        0).addBCParticles [5, 1]).is_bc_particle.getD 1 false =
      (((((emptyContainer 2 1).addParticle pA).addParticle
          pB).addBCParticle 0).addBCParticles
        [5, 1]).is_bc_particle.getD 1 false :=
  C9_amended_boundary_marking
    (((emptyContainer 2 1).addParticle pA).addParticle pB) 0 [5, 1]
    (by decide) 1 (by decide)

/-- Counterexample to **C9** as stated: the claim requires the boundary flag
to be `true` exactly on the union of the valid indices marked by the
`markBoundary`/`markBoundaries` pair and `false` elsewhere, for *every*
starting container.  On a one-particle container whose flag 0 was already
set, marking index 1 (invalid) and then the empty batch leaves flag 0
`true`, although 0 is not among the marked indices. -/
theorem C9_counterexample_preexisting_flag :
    (((((emptyContainer 2 1).addParticle pA).addBCParticle 0).addBCParticle
          1).addBCParticles []).is_bc_particle.getD 0 false = true ∧
    (0 : ℕ) ≠ 1 ∧ (0 : ℕ) ∉ ([] : List ℕ) :=
  ⟨by decide, by decide, by decide⟩

end MPMSolidBase

end PhysikaMPM
